import Mathlib

/-!
Verification of the pair-based cellular-automaton setup in
`turbulent_suspension_crystallization.py`.

Cell states are small integers: 0 = fluid, 1 = particle, 2 = crystal.
A pair-state is the tuple (left/tail cell state, right/head cell state,
orientation), with orientation 0 = horizontal and 1 = vertical.
Rates in the source are Python floats with exact small values (50.0,
100.0); they are embedded as rationals.
-/

/-- A link-state transition rule, mirroring landlab's `Transition`
constructor arguments as used in the source: source pair-state tuple,
destination pair-state tuple, rate, and a label. -/
structure Transition where
  from_state : ℕ × ℕ × ℕ
  to_state : ℕ × ℕ × ℕ
  rate : ℚ
  label : String
deriving DecidableEq, Repr

/-- The list built by `setup_transition_list` (source lines 77-85). -/
def setup_transition_list : List Transition :=
  [ Transition.mk (0, 1, 0) (1, 0, 0) 50 "left motion",
    Transition.mk (1, 0, 0) (0, 1, 0) 50 "right motion",
    Transition.mk (0, 1, 1) (1, 0, 1) 50 "down motion",
    Transition.mk (1, 0, 1) (0, 1, 1) 50 "up motion",
    Transition.mk (1, 2, 1) (2, 2, 1) 100 "down capture",
    Transition.mk (2, 1, 1) (2, 2, 1) 100 "up capture",
    Transition.mk (1, 2, 0) (2, 2, 1) 100 "left capture",
    Transition.mk (2, 1, 0) (2, 2, 1) 100 "right capture" ]

/-- A capture rule: the source pair-state holds exactly one particle (1)
and one crystal (2), and the destination pair holds two crystals. -/
def is_capture (r : Transition) : Bool :=
  ((r.from_state.1 == 1 && r.from_state.2.1 == 2) ||
   (r.from_state.1 == 2 && r.from_state.2.1 == 1)) &&
  (r.to_state.1 == 2 && r.to_state.2.1 == 2)

/-- The rules of a transition list whose source pair-state is `ps`
(the Transition Table's `rules_for`). -/
def rules_for (xns : List Transition) (ps : ℕ × ℕ × ℕ) : List Transition :=
  xns.filter (fun r => r.from_state == ps)

/-- Total outgoing rate of a pair-state: the sum of the rates of all
rules whose source pair-state is `ps` (0 if none). -/
def total_rate (xns : List Transition) (ps : ℕ × ℕ × ℕ) : ℚ :=
  ((rules_for xns ps).map (fun r => r.rate)).sum

/-- C1: `setup_transition_list` returns exactly eight transition rules:
four motion rules each with rate 50 — (0,1,0)->(1,0,0) "left motion",
(1,0,0)->(0,1,0) "right motion", (0,1,1)->(1,0,1) "down motion",
(1,0,1)->(0,1,1) "up motion" — and four capture rules each with rate 100,
and no rule carries the docstring's asymmetric 10.55 or 9.45 rate. -/
theorem setup_transition_list_rates :
    setup_transition_list.length = 8 ∧
    (setup_transition_list.map
        (fun r => (r.from_state, r.to_state, r.rate, r.label))).take 4 =
      [((0, 1, 0), (1, 0, 0), (50 : ℚ), "left motion"),
       ((1, 0, 0), (0, 1, 0), (50 : ℚ), "right motion"),
       ((0, 1, 1), (1, 0, 1), (50 : ℚ), "down motion"),
       ((1, 0, 1), (0, 1, 1), (50 : ℚ), "up motion")] ∧
    (setup_transition_list.filter is_capture).length = 4 ∧
    ((setup_transition_list.filter is_capture).all
        (fun r => r.rate == 100)) = true ∧
    (setup_transition_list.map (fun r => r.rate)).contains (mkRat 1055 100) = false ∧
    (setup_transition_list.map (fun r => r.rate)).contains (mkRat 945 100) = false := by
  refine ⟨rfl, rfl, rfl, ?_, ?_, ?_⟩ <;> decide

/-- C2 counterexample: it is not true that every rule's destination
pair-state carries the same orientation as its source pair-state — the
"left capture" rule (source line 83) has source orientation 0 but
destination orientation 1, as does "right capture" (line 84). -/
theorem orientation_preserved_counterexample :
    ((∃ r ∈ setup_transition_list,
        r.label = "left capture" ∧ r.from_state.2.2 = 0 ∧ r.to_state.2.2 = 1) ∧
     ¬ (∀ r ∈ setup_transition_list, r.to_state.2.2 = r.from_state.2.2)) := by
  decide

/-- C2 (amended): every rule of `setup_transition_list` except the two
horizontal capture rules "left capture" and "right capture" keeps the
orientation component of its destination pair-state equal to that of its
source pair-state; those two rules have source orientation 0 and
destination orientation 1. -/
theorem orientation_preserved_except_horizontal_captures :
    ∀ r ∈ setup_transition_list,
      r.label ≠ "left capture" → r.label ≠ "right capture" →
      r.to_state.2.2 = r.from_state.2.2 := by
  decide

/-- Witness for the amended C2 at the concrete "left motion" rule. -/
theorem orientation_preserved_witness :
    (Transition.mk (0, 1, 0) (1, 0, 0) 50 "left motion").to_state.2.2 =
      (Transition.mk (0, 1, 0) (1, 0, 0) 50 "left motion").from_state.2.2 :=
  orientation_preserved_except_horizontal_captures
    (Transition.mk (0, 1, 0) (1, 0, 0) 50 "left motion")
    (by decide) (by decide) (by decide)

/-- If the source pair-states of a transition list are pairwise distinct,
every pair-state has at most one matching rule. -/
lemma length_rules_for_le_one (xns : List Transition)
    (h : (xns.map (fun r => r.from_state)).Nodup) (ps : ℕ × ℕ × ℕ) :
    (rules_for xns ps).length ≤ 1 := by
  induction xns with
  | nil => simp [rules_for]
  | cons r l ih =>
    simp only [List.map_cons, List.nodup_cons] at h
    by_cases hr : r.from_state = ps
    · have hnil : l.filter (fun x => x.from_state == ps) = [] := by
        refine List.filter_eq_nil_iff.mpr ?_
        intro x hx hxps
        apply h.1
        rw [hr, ← beq_iff_eq.mp hxps]
        exact List.mem_map_of_mem _ hx
      simp [rules_for, hr, hnil, List.filter_cons]
    · have : (r.from_state == ps) = false := beq_eq_false_iff_ne.mpr hr
      simpa [rules_for, List.filter_cons, this] using ih h.2

/-- C8: the eight rules have pairwise distinct source pair-states, so
every pair-state has at most one candidate transition and destination
resolution at event execution is deterministic. -/
theorem sources_nodup_deterministic :
    (setup_transition_list.map (fun r => r.from_state)).Nodup ∧
    ∀ ps : ℕ × ℕ × ℕ, (rules_for setup_transition_list ps).length ≤ 1 := by
  have h : (setup_transition_list.map (fun r => r.from_state)).Nodup := by decide
  exact ⟨h, length_rules_for_le_one setup_transition_list h⟩

/-- Executing a transition applies the destination pair-state to the two
endpoint cells of the link (tail cell `i` gets the destination's first
component, head cell `j` its second); all other cells keep their state. -/
def apply_xn (σ : ℕ → ℕ) (i j : ℕ) (r : Transition) : ℕ → ℕ :=
  fun c => if c = i then r.to_state.1 else if c = j then r.to_state.2.1 else σ c

/-- One event execution of the automaton under `setup_transition_list`:
some rule of the list fires on a link (i, j) of some orientation whose
current pair-state matches the rule's source pair-state. -/
def CAStep (σ τ : ℕ → ℕ) : Prop :=
  ∃ r ∈ setup_transition_list, ∃ i j o : ℕ, i ≠ j ∧
    r.from_state = (σ i, σ j, o) ∧ τ = apply_xn σ i j r

/-- C9: no rule of `setup_transition_list` maps an endpoint out of the
crystal state (2): whenever a source component is 2 the corresponding
destination component is 2; consequently, along any sequence of
transitions every cell that is crystal stays crystal. -/
theorem crystal_permanent :
    (∀ r ∈ setup_transition_list,
        (r.from_state.1 = 2 → r.to_state.1 = 2) ∧
        (r.from_state.2.1 = 2 → r.to_state.2.1 = 2)) ∧
    (∀ σ τ : ℕ → ℕ, Relation.ReflTransGen CAStep σ τ →
      ∀ c, σ c = 2 → τ c = 2) := by
  have hrules : ∀ r ∈ setup_transition_list,
      (r.from_state.1 = 2 → r.to_state.1 = 2) ∧
      (r.from_state.2.1 = 2 → r.to_state.2.1 = 2) := by decide
  refine ⟨hrules, ?_⟩
  intro σ τ hst
  induction hst with
  | refl => exact fun c hc => hc
  | tail _ hbc ih =>
    intro c hc
    obtain ⟨r, hr, i, j, o, hij, hfrom, hτ⟩ := hbc
    have h2 := ih c hc
    subst hτ
    unfold apply_xn
    by_cases hci : c = i
    · subst hci
      have : r.from_state.1 = 2 := by rw [hfrom]; exact h2
      simpa using (hrules r hr).1 this
    · by_cases hcj : c = j
      · subst hcj
        have : r.from_state.2.1 = 2 := by rw [hfrom]; exact h2
        simp [hci]
        exact (hrules r hr).2 this
      · simpa [hci, hcj] using h2

/-- Witness for C9 at the all-crystal configuration and the empty
transition sequence. -/
theorem crystal_permanent_witness : (fun _ : ℕ => 2) 0 = 2 :=
  crystal_permanent.2 (fun _ => 2) (fun _ => 2) Relation.ReflTransGen.refl 0 rfl

/-- Number of cells among `0, ..., numCells - 1` currently in state `s`. -/
def grid_count (σ : ℕ → ℕ) (numCells s : ℕ) : ℕ :=
  ((Finset.range numCells).filter (fun c => σ c = s)).card

/-- If `τ` agrees with `σ` off `{p, q}`, cell `p` leaves state `s`, and
cell `q` is in state `s` on neither side, the count of `s`-cells drops by
exactly one. -/
lemma grid_count_drop (σ τ : ℕ → ℕ) (numCells s p q : ℕ) (hpN : p < numCells)
    (hagree : ∀ c, c ≠ p → c ≠ q → τ c = σ c)
    (hσp : σ p = s) (hτp : τ p ≠ s) (hσq : σ q ≠ s) (hτq : τ q ≠ s) :
    grid_count τ numCells s + 1 = grid_count σ numCells s := by
  have hset : (Finset.range numCells).filter (fun c => τ c = s)
      = ((Finset.range numCells).filter (fun c => σ c = s)).erase p := by
    ext c
    simp only [Finset.mem_erase, Finset.mem_filter, Finset.mem_range]
    constructor
    · rintro ⟨hcN, hτc⟩
      by_cases hcp : c = p
      · exact absurd (hcp ▸ hτc) hτp
      by_cases hcq : c = q
      · exact absurd (hcq ▸ hτc) hτq
      · exact ⟨hcp, hcN, (hagree c hcp hcq) ▸ hτc⟩
    · rintro ⟨hcp, hcN, hσc⟩
      by_cases hcq : c = q
      · exact absurd (hcq ▸ hσc) hσq
      · exact ⟨hcN, (hagree c hcp hcq).trans hσc⟩
  have hmem : p ∈ (Finset.range numCells).filter (fun c => σ c = s) := by
    simp [hpN, hσp]
  have hpos := Finset.card_pos.mpr ⟨p, hmem⟩
  rw [grid_count, grid_count, hset, Finset.card_erase_of_mem hmem]
  omega

/-- If `τ` agrees with `σ` off `{p, q}`, cell `p` enters state `s`, and
cell `q` is in state `s` on both sides, the count of `s`-cells grows by
exactly one. -/
lemma grid_count_gain (σ τ : ℕ → ℕ) (numCells s p q : ℕ) (hpN : p < numCells)
    (hagree : ∀ c, c ≠ p → c ≠ q → τ c = σ c)
    (hσp : σ p ≠ s) (hτp : τ p = s) (hσq : σ q = s) (hτq : τ q = s) :
    grid_count τ numCells s = grid_count σ numCells s + 1 := by
  have hset : (Finset.range numCells).filter (fun c => τ c = s)
      = insert p ((Finset.range numCells).filter (fun c => σ c = s)) := by
    ext c
    simp only [Finset.mem_insert, Finset.mem_filter, Finset.mem_range]
    constructor
    · rintro ⟨hcN, hτc⟩
      by_cases hcp : c = p
      · exact Or.inl hcp
      by_cases hcq : c = q
      · exact Or.inr ⟨hcN, hcq ▸ hσq⟩
      · exact Or.inr ⟨hcN, (hagree c hcp hcq) ▸ hτc⟩
    · rintro (hcp | ⟨hcN, hσc⟩)
      · exact ⟨hcp ▸ hpN, hcp ▸ hτp⟩
      by_cases hcp : c = p
      · exact ⟨hcN, hcp ▸ hτp⟩
      by_cases hcq : c = q
      · exact ⟨hcN, hcq ▸ hτq⟩
      · exact ⟨hcN, (hagree c hcp hcq).trans hσc⟩
  have hnotmem : p ∉ (Finset.range numCells).filter (fun c => σ c = s) := by
    simp [hσp]
  rw [grid_count, grid_count, hset, Finset.card_insert_of_not_mem hnotmem]

/-- If `τ` agrees with `σ` off `{p, q}` and membership in state `s` is
unchanged at both `p` and `q`, the count of `s`-cells is unchanged. -/
lemma grid_count_same (σ τ : ℕ → ℕ) (numCells s p q : ℕ)
    (hagree : ∀ c, c ≠ p → c ≠ q → τ c = σ c)
    (hp : σ p = s ↔ τ p = s) (hq : σ q = s ↔ τ q = s) :
    grid_count τ numCells s = grid_count σ numCells s := by
  unfold grid_count
  congr 1
  ext c
  simp only [Finset.mem_filter, Finset.mem_range, and_congr_right_iff]
  intro _
  by_cases hcp : c = p
  · subst hcp; exact hp.symm
  by_cases hcq : c = q
  · subst hcq; exact hq.symm
  · rw [hagree c hcp hcq]

/-- C3: executing any capture rule of `setup_transition_list` on a link
(i, j) of a grid of `numCells` cells decreases the number of
particle-state cells by exactly one, increases the number of
crystal-state cells by exactly one, and leaves the number of fluid-state
cells (hence the total cell count) unchanged. -/
theorem capture_conservation :
    ∀ r ∈ setup_transition_list, is_capture r = true →
    ∀ (σ : ℕ → ℕ) (i j numCells : ℕ), i < numCells → j < numCells → i ≠ j →
      σ i = r.from_state.1 → σ j = r.from_state.2.1 →
      grid_count (apply_xn σ i j r) numCells 1 + 1 = grid_count σ numCells 1 ∧
      grid_count (apply_xn σ i j r) numCells 2 = grid_count σ numCells 2 + 1 ∧
      grid_count (apply_xn σ i j r) numCells 0 = grid_count σ numCells 0 := by
  intro r hr hcap σ i j numCells hiN hjN hij hσi hσj
  have hagree : ∀ c, c ≠ i → c ≠ j → apply_xn σ i j r c = σ c := by
    intro c hci hcj
    simp [apply_xn, hci, hcj]
  have hagree2 : ∀ c, c ≠ j → c ≠ i → apply_xn σ i j r c = σ c :=
    fun c hcj hci => hagree c hci hcj
  fin_cases hr <;> simp only [is_capture] at hcap hσi hσj
  · exact absurd hcap (by decide)
  · exact absurd hcap (by decide)
  · exact absurd hcap (by decide)
  · exact absurd hcap (by decide)
  · -- down capture (1,2,1) -> (2,2,1): tail i is the particle
    refine ⟨grid_count_drop σ _ numCells 1 i j hiN hagree ?_ ?_ ?_ ?_,
            grid_count_gain σ _ numCells 2 i j hiN hagree ?_ ?_ ?_ ?_,
            grid_count_same σ _ numCells 0 i j hagree ?_ ?_⟩ <;>
      simp [apply_xn, Ne.symm hij, hσi, hσj]
  · -- up capture (2,1,1) -> (2,2,1): head j is the particle
    refine ⟨grid_count_drop σ _ numCells 1 j i hjN hagree2 ?_ ?_ ?_ ?_,
            grid_count_gain σ _ numCells 2 j i hjN hagree2 ?_ ?_ ?_ ?_,
            grid_count_same σ _ numCells 0 j i hagree2 ?_ ?_⟩ <;>
      simp [apply_xn, Ne.symm hij, hσi, hσj]
  · -- left capture (1,2,0) -> (2,2,1): tail i is the particle
    refine ⟨grid_count_drop σ _ numCells 1 i j hiN hagree ?_ ?_ ?_ ?_,
            grid_count_gain σ _ numCells 2 i j hiN hagree ?_ ?_ ?_ ?_,
            grid_count_same σ _ numCells 0 i j hagree ?_ ?_⟩ <;>
      simp [apply_xn, Ne.symm hij, hσi, hσj]
  · -- right capture (2,1,0) -> (2,2,1): head j is the particle
    refine ⟨grid_count_drop σ _ numCells 1 j i hjN hagree2 ?_ ?_ ?_ ?_,
            grid_count_gain σ _ numCells 2 j i hjN hagree2 ?_ ?_ ?_ ?_,
            grid_count_same σ _ numCells 0 j i hagree2 ?_ ?_⟩ <;>
      simp [apply_xn, Ne.symm hij, hσi, hσj]

/-- Witness for C3: the "down capture" rule on the two-cell grid
`[particle, crystal]`. -/
theorem capture_conservation_witness :
    grid_count (apply_xn (fun c => if c = 0 then 1 else 2) 0 1
        (Transition.mk (1, 2, 1) (2, 2, 1) 100 "down capture")) 2 1 + 1 =
      grid_count (fun c => if c = 0 then 1 else 2) 2 1 ∧
    grid_count (apply_xn (fun c => if c = 0 then 1 else 2) 0 1
        (Transition.mk (1, 2, 1) (2, 2, 1) 100 "down capture")) 2 2 =
      grid_count (fun c => if c = 0 then 1 else 2) 2 2 + 1 ∧
    grid_count (apply_xn (fun c => if c = 0 then 1 else 2) 0 1
        (Transition.mk (1, 2, 1) (2, 2, 1) 100 "down capture")) 2 0 =
      grid_count (fun c => if c = 0 then 1 else 2) 2 0 :=
  capture_conservation (Transition.mk (1, 2, 1) (2, 2, 1) 100 "down capture")
    (by decide) (by decide) (fun c => if c = 0 then 1 else 2) 0 1 2
    (by decide) (by decide) (by decide) (by decide) (by decide)

/-- Number of grid rows (source line 93). -/
def nr : ℕ := 100

/-- Number of grid columns (source line 94). -/
def nc : ℕ := 64

/-- Row coordinate of node `n`: landlab's RasterModelGrid numbers nodes
row-major with unit spacing, so `node_y = (n / nc) * 1.0`, an exact
integer value. -/
def node_y (n : ℕ) : ℚ := (n / nc : ℕ)

/-- The float product `0.1 * nr` in the source evaluates to exactly 10.0
in binary64 (the rounding error of the literal 0.1 is washed out by the
final rounding), so the threshold is exactly nr / 10. -/
def bottom_threshold : ℚ := mkRat nr 10

/-- The float product `0.5 * nr` is exact in binary64: nr / 2. -/
def seed_threshold : ℚ := mkRat nr 2

/-- After `set_closed_boundaries_at_grid_edges(True, True, True, True)`
(source line 108) every perimeter node of the nr x nc raster grid is a
closed-boundary node, and no interior node is. -/
def closed_boundary (n : ℕ) : Bool :=
  (n / nc == 0) || (n / nc == nr - 1) || (n % nc == 0) || (n % nc == nc - 1)

/-- `mg.add_zeros(...)` (source line 115): all nodes start as fluid. -/
def initial_state : ℕ → ℕ := fun _ => 0

/-- `node_state_grid[bottom_rows] = 1` (source lines 119-120). -/
def with_bottom_rows (σ : ℕ → ℕ) : ℕ → ℕ :=
  fun n => if node_y n < bottom_threshold then 1 else σ n

/-- `node_state_grid[seed_crystal_rows] = 2` (source lines 123-124). -/
def with_seed_crystal (σ : ℕ → ℕ) : ℕ → ℕ :=
  fun n => if node_y n > seed_threshold then 2 else σ n

/-- `node_state_grid[mg.closed_boundary_nodes] = 0` (source line 127). -/
def with_fluid_boundaries (σ : ℕ → ℕ) : ℕ → ℕ :=
  fun n => if closed_boundary n then 0 else σ n

/-- The node-state array after the four initialization writes of `main`,
in source order: zeros, bottom rows to particle, seed rows to crystal,
closed boundaries to fluid last. -/
def node_state_grid : ℕ → ℕ :=
  with_fluid_boundaries (with_seed_crystal (with_bottom_rows initial_state))

/-- Every closed-boundary node ends initialization in the fluid state,
because the boundary write comes last. -/
lemma node_state_grid_boundary (n : ℕ) (hb : closed_boundary n = true) :
    node_state_grid n = 0 := by
  unfold node_state_grid with_fluid_boundaries
  simp [hb]

/-- C10: after the initialization writes of `main` (zeros, then rows with
y < 0.1*nr set to particle, then rows with y > 0.5*nr set to crystal,
then closed-boundary nodes set to fluid last), every closed-boundary node
holds state 0 — even though the particle and crystal regions cover the
boundary rows — and every node state is a declared value 0, 1 or 2. -/
theorem init_boundary_fluid_and_states_declared :
    ∀ n, n < nr * nc →
      (closed_boundary n = true → node_state_grid n = 0) ∧
      (node_state_grid n = 0 ∨ node_state_grid n = 1 ∨ node_state_grid n = 2) := by
  intro n _
  refine ⟨node_state_grid_boundary n, ?_⟩
  unfold node_state_grid with_fluid_boundaries with_seed_crystal with_bottom_rows
    initial_state
  by_cases hb : closed_boundary n <;>
    by_cases h2 : node_y n > seed_threshold <;>
    by_cases h1 : node_y n < bottom_threshold <;>
    simp [hb, h2, h1]

/-- Witness for C10 at node 0: a boundary node inside the particle
region still ends as fluid. -/
theorem init_witness :
    node_state_grid 0 = 0 ∧
    (node_state_grid 0 = 0 ∨ node_state_grid 0 = 1 ∨ node_state_grid 0 = 2) :=
  ⟨(init_boundary_fluid_and_states_declared 0 (by decide)).1 (by decide),
   (init_boundary_fluid_and_states_declared 0 (by decide)).2⟩

/-- An oriented adjacency of the lattice: tail cell, head cell, and the
orientation tag fixed by the adjacency (0 = horizontal, 1 = vertical). -/
structure Link where
  tail : ℕ
  head : ℕ
  orientation : ℕ
deriving DecidableEq, Repr

/-- A link's pair-state, recomputed from the current endpoint states. -/
def pair_state (σ : ℕ → ℕ) (L : Link) : ℕ × ℕ × ℕ :=
  (σ L.tail, σ L.head, L.orientation)

/-- Modelled from the spec: the Link Registry's activity test lives in
the engine library (landlab's celllab_cts / oriented_raster_cts), which
is not under src/. Spec section 4.2: a link is active iff its pair-state
has strictly positive total rate and neither endpoint is a boundary cell
acting as a transition source. -/
def is_active (σ : ℕ → ℕ) (L : Link) : Prop :=
  0 < total_rate setup_transition_list (pair_state σ L) ∧
  closed_boundary L.tail = false ∧ closed_boundary L.head = false

/-- Modelled from the spec: the Event Scheduler (engine library, not
under src/) is asked to schedule an event for a link exactly when the
Link Registry finds it active (spec sections 4.2 and 4.3). -/
def event_scheduled (σ : ℕ → ℕ) (L : Link) : Prop :=
  is_active σ L

/-- No rule's source pair-state is the crystal-crystal pair, whatever the
orientation. -/
lemma rules_for_crystal_pair_nil (o : ℕ) :
    rules_for setup_transition_list (2, 2, o) = [] := by
  refine List.filter_eq_nil_iff.mpr ?_
  intro r hr
  fin_cases hr <;> simp only [beq_iff_eq, Prod.mk.injEq] <;> omega

/-- C4: the crystal-crystal pair-state (2,2) at either orientation is not
the source of any rule, so its total outgoing rate is 0 and no event is
ever scheduled for a link both of whose endpoints are crystal. -/
theorem crystal_pair_absorbing :
    (∀ o : ℕ, total_rate setup_transition_list (2, 2, o) = 0) ∧
    (∀ (σ : ℕ → ℕ) (L : Link), σ L.tail = 2 → σ L.head = 2 →
      ¬ event_scheduled σ L) := by
  have hzero : ∀ o : ℕ, total_rate setup_transition_list (2, 2, o) = 0 := by
    intro o
    simp [total_rate, rules_for_crystal_pair_nil o]
  refine ⟨hzero, ?_⟩
  intro σ L h1 h2 hsched
  simp only [event_scheduled, is_active] at hsched
  have hps : pair_state σ L = (2, 2, L.orientation) := by
    simp [pair_state, h1, h2]
  rw [hps, hzero L.orientation] at hsched
  exact absurd hsched.1 (lt_irrefl 0)

/-- Witness for C4 at orientation 1 and an all-crystal configuration. -/
theorem crystal_pair_absorbing_witness :
    total_rate setup_transition_list (2, 2, 1) = 0 ∧
    ¬ event_scheduled (fun _ => 2) (Link.mk 0 1 1) :=
  ⟨crystal_pair_absorbing.1 1,
   crystal_pair_absorbing.2 (fun _ => 2) (Link.mk 0 1 1) rfl rfl⟩

/-- C5: in `main`'s grid every closed-boundary node is initialized to
fluid, and (modelled from the spec, section 4.2) no event is ever
scheduled for a link one of whose endpoints is a closed-boundary cell,
regardless of the declared rates. -/
theorem boundary_never_initiates :
    (∀ n, closed_boundary n = true → node_state_grid n = 0) ∧
    (∀ (σ : ℕ → ℕ) (L : Link),
      closed_boundary L.tail = true ∨ closed_boundary L.head = true →
      ¬ event_scheduled σ L) := by
  refine ⟨node_state_grid_boundary, ?_⟩
  intro σ L hb hsched
  simp only [event_scheduled, is_active] at hsched
  rcases hb with hb | hb
  · rw [hsched.2.1] at hb
    exact Bool.false_ne_true hb
  · rw [hsched.2.2] at hb
    exact Bool.false_ne_true hb

/-- Witness for C5: node 0 is a closed-boundary node; its state is fluid
and the link from it to node 1 is never scheduled, even in a
configuration where node 0 holds a particle. -/
theorem boundary_never_initiates_witness :
    node_state_grid 0 = 0 ∧
    ¬ event_scheduled (fun n => if n = 0 then 1 else 0) (Link.mk 0 1 0) :=
  ⟨boundary_never_initiates.1 0 (by decide),
   boundary_never_initiates.2 (fun n => if n = 0 then 1 else 0) (Link.mk 0 1 0)
     (Or.inl (by decide))⟩

/-- Construction-time failure of the Transition Table. -/
inductive RuleError where
  | invalidRule : RuleError
deriving DecidableEq, Repr

/-- Modelled from the spec: the Transition Table constructor (engine
library, not under src/) raises InvalidRuleError when a rule references a
state outside the declared set or has a non-positive rate (spec section
4.1); this models those two checks for one rule. -/
def check_rule (declared : List ℕ) (r : Transition) : Bool :=
  decide (0 < r.rate) &&
  declared.contains r.from_state.1 && declared.contains r.from_state.2.1 &&
  declared.contains r.to_state.1 && declared.contains r.to_state.2.1

/-- Modelled from the spec: building the transition table from a rule
list aborts with InvalidRuleError if any rule fails `check_rule`,
otherwise it returns the table. -/
def build_table (declared : List ℕ) (xns : List Transition) :
    Except RuleError (List Transition) :=
  if xns.all (check_rule declared) then Except.ok xns
  else Except.error RuleError.invalidRule

/-- C6: every rule of `setup_transition_list` has a strictly positive
rate and references only the declared states 0, 1, 2, so constructing the
transition table from it does not raise InvalidRuleError for a
non-positive rate or an undeclared state. -/
theorem transition_list_valid :
    (setup_transition_list.all (check_rule [0, 1, 2])) = true ∧
    build_table [0, 1, 2] setup_transition_list = Except.ok setup_transition_list := by
  constructor
  · decide
  · rfl

/-- Duration of the run in simulated seconds (source line 96). -/
def run_duration : ℚ := 30

/-- Interval between ca.run calls in simulated seconds (source line 95);
0.5 is exact in binary64, so the float loop arithmetic is exact. -/
def plot_interval : ℚ := mkRat 1 2

/-- The successive target times passed to `ca.run` by the while loop of
`main` (source lines 146-159): starting from current_time = 0, while
current_time < run_duration the loop calls ca.run(current_time +
plot_interval) and then increments current_time by plot_interval. The
fuel argument bounds the iteration count of the while loop. -/
def run_targets (current : ℚ) (fuel : ℕ) : List ℚ :=
  match fuel with
  | 0 => []
  | Nat.succ f =>
      if current < run_duration then
        (current + plot_interval) :: run_targets (current + plot_interval) f
      else []

/-- A chain over consecutive values of `f` on an initial segment of ℕ. -/
lemma chain_map_range {α : Type} (rel : α → α → Prop) (f : ℕ → α)
    (h : ∀ k, rel (f k) (f (k + 1))) (n : ℕ) :
    List.Chain' rel ((List.range n).map f) := by
  rw [List.chain'_map]
  cases n with
  | zero => simp
  | succ m => exact (List.chain'_range_succ _ m).mpr (fun i _ => h i)

unseal Rat.add in
/-- C7: the run loop calls ca.run exactly 60 times, with target times
0.5, 1.0, ..., 30.0 — each exactly plot_interval greater than the
previous, strictly increasing (hence non-decreasing), ending at exactly
run_duration = 30. -/
theorem run_loop_targets :
    run_targets (mkRat 0 1) 100 =
      (List.range 60).map (fun k : ℕ => mkRat ((k : ℤ) + 1) 2) ∧
    (run_targets (mkRat 0 1) 100).length = 60 ∧
    List.Chain' (fun a b : ℚ => b = a + plot_interval) (run_targets (mkRat 0 1) 100) ∧
    List.Chain' (fun a b : ℚ => a < b) (run_targets (mkRat 0 1) 100) ∧
    (run_targets (mkRat 0 1) 100).getLast? = some run_duration := by
  have hmap : run_targets (mkRat 0 1) 100 =
      (List.range 60).map (fun k : ℕ => mkRat ((k : ℤ) + 1) 2) := by decide
  have hstep : ∀ k : ℕ,
      mkRat ((((k + 1) : ℕ) : ℤ) + 1) 2 = mkRat ((k : ℤ) + 1) 2 + plot_interval := by
    intro k
    simp only [plot_interval, Rat.mkRat_eq_div]
    push_cast
    ring
  have hchain : List.Chain' (fun a b : ℚ => b = a + plot_interval)
      (run_targets (mkRat 0 1) 100) := by
    rw [hmap]
    exact chain_map_range _ _ hstep 60
  have hpos : (0 : ℚ) < plot_interval := by
    simp only [plot_interval, Rat.mkRat_eq_div]
    norm_num
  refine ⟨hmap, by rw [hmap]; simp, hchain, ?_, by decide⟩
  exact hchain.imp (fun a b hab => hab ▸ lt_add_of_pos_right a hpos)
